import Mathlib

/-!
Verification of the hazard-pointer retirement and reclamation engine in
src/local.rs (crate haphazard, module local).

The Rust module is embedded shallowly:

* raw pointers are modelled as natural numbers (the reclamation logic only
  compares addresses by value, never dereferences them);
* the type-erased deleter closure of a RetiredRecord is modelled as a
  natural-number identifier determined by the concrete type and ownership
  mode (T, P) — both retire and retire_pp build the same closure for the
  same (T, P);
* the domain field of a LocalBag is modelled by passing the guarded-address
  snapshot that Domain.collect_guarded_ptrs would return as an explicit
  argument wherever a reclamation pass runs;
* side effects (the heavy membarrier, dropping guards, querying the
  registry, invoking a deleter, protecting, marking, invoking the removal
  closure, pushing a record) are made observable as an event trace emitted
  alongside the new bag state, in the order the Rust code performs them.
-/

namespace Haphazard

/-- One pending-free entry: the retired address plus the identifier of its
type-erased deleter (LocalRetired in local.rs). -/
structure LocalRetired where
  ptr : Nat
  deleter : Nat
deriving Repr, DecidableEq

/-- A hazard-pointer guard, identified by the address it protects
(HazardPointer, external collaborator; try_unlink only ever creates one and
immediately protects a link address with it). -/
structure HazardPtr where
  protects : Nat
deriving Repr, DecidableEq

/-- The per-thread bag (LocalBag in local.rs).  The domain reference is not
stored: the guarded-address snapshot it would provide is passed to each
reclamation pass explicitly. -/
structure LocalBag where
  retired : List LocalRetired
  hps : List HazardPtr
  collect_count : Nat
deriving Repr, DecidableEq

/-- Observable side effects of the Rust code, in program order. -/
inductive Event where
  | heavyBarrier
  | dropHps (gs : List HazardPtr)
  | collectGuardedPtrs
  | free (r : LocalRetired)
  | protect (g : HazardPtr) (a : Nat)
  | invokeUnlink
  | mark (a : Nat)
  | pushRetired (r : LocalRetired)
  | transferHps (gs : List HazardPtr)
deriving Repr, DecidableEq

/-- LocalBag::COUNTS_BETWEEN_COLLECT. -/
def COUNTS_BETWEEN_COLLECT : Nat := 128

/-- usize arithmetic wraps at 2^64 (collect_count.wrapping_add(1)). -/
def USIZE_MOD : Nat := 2 ^ 64

/-- LocalBag::new. -/
def LocalBag.new : LocalBag := ⟨[], [], 0⟩

/-- The filter_map body shared by do_reclamation and do_reclamation_pp:
walk the retired list front to back; a record whose address is in the
guarded set is kept, any other record has its deleter invoked (emitting a
free event) and is dropped. -/
def reclaimFilter (guarded : List Nat) : List LocalRetired → List LocalRetired × List Event
  | [] => ([], [])
  | e :: rest =>
    let tail := reclaimFilter guarded rest
    if guarded.contains e.ptr then
      (e :: tail.1, tail.2)
    else
      (tail.1, Event.free e :: tail.2)

/-- LocalBag::do_reclamation: heavy barrier, query the registry, then
filter the retired list, freeing every unguarded record. -/
def do_reclamation (guarded : List Nat) (bag : LocalBag) : LocalBag × List Event :=
  let fl := reclaimFilter guarded bag.retired
  ({ bag with retired := fl.1 },
   Event.heavyBarrier :: Event.collectGuardedPtrs :: fl.2)

/-- LocalBag::do_reclamation_pp: heavy barrier, drop the transferred
guards, query the registry, then filter the retired list. -/
def do_reclamation_pp (guarded : List Nat) (bag : LocalBag) : LocalBag × List Event :=
  let fl := reclaimFilter guarded bag.retired
  ({ bag with retired := fl.1, hps := [] },
   Event.heavyBarrier :: Event.dropHps bag.hps :: Event.collectGuardedPtrs :: fl.2)

/-- The shared shape of retire and retire_pp: push one record, bump the
wrapping counter, and when the counter hits a multiple of the batch
threshold run the supplied reclamation routine. -/
def retireGeneric (reclaim : List Nat → LocalBag → LocalBag × List Event)
    (guarded : List Nat) (ptr deleter : Nat) (bag : LocalBag) : LocalBag × List Event :=
  let r : LocalRetired := ⟨ptr, deleter⟩
  let pushed : LocalBag := { bag with retired := bag.retired ++ [r] }
  let c := (bag.collect_count + 1) % USIZE_MOD
  let bumped : LocalBag := { pushed with collect_count := c }
  if c % COUNTS_BETWEEN_COLLECT = 0 then
    let res := reclaim guarded bumped
    (res.1, Event.pushRetired r :: res.2)
  else
    (bumped, [Event.pushRetired r])

/-- LocalBag::retire. -/
def retire (guarded : List Nat) (ptr deleter : Nat) (bag : LocalBag) : LocalBag × List Event :=
  let r : LocalRetired := ⟨ptr, deleter⟩
  let pushed : LocalBag := { bag with retired := bag.retired ++ [r] }
  let c := (bag.collect_count + 1) % USIZE_MOD
  let bumped : LocalBag := { pushed with collect_count := c }
  if c % COUNTS_BETWEEN_COLLECT = 0 then
    let res := do_reclamation guarded bumped
    (res.1, Event.pushRetired r :: res.2)
  else
    (bumped, [Event.pushRetired r])

/-- LocalBag::retire_pp. -/
def retire_pp (guarded : List Nat) (ptr deleter : Nat) (bag : LocalBag) : LocalBag × List Event :=
  let r : LocalRetired := ⟨ptr, deleter⟩
  let pushed : LocalBag := { bag with retired := bag.retired ++ [r] }
  let c := (bag.collect_count + 1) % USIZE_MOD
  let bumped : LocalBag := { pushed with collect_count := c }
  if c % COUNTS_BETWEEN_COLLECT = 0 then
    let res := do_reclamation_pp guarded bumped
    (res.1, Event.pushRetired r :: res.2)
  else
    (bumped, [Event.pushRetired r])

/-- The deleter identifier of the Box ownership mode used by try_unlink
(retire_pp with P = Box). -/
def boxDeleter : Nat := 0

/-- Fold retire over a list of pointers (used to build concrete scenarios). -/
def retireMany (guarded : List Nat) (ptrs : List Nat) (bag : LocalBag) : LocalBag × List Event :=
  match ptrs with
  | [] => (bag, [])
  | p :: rest =>
    let fst := retire guarded p boxDeleter bag
    let snd := retireMany guarded rest fst.1
    (snd.1, fst.2 ++ snd.2)

/-- The retire_pp loop inside try_unlink's success branch. -/
def retirePPMany (guarded : List Nat) (ptrs : List Nat) (bag : LocalBag) : LocalBag × List Event :=
  match ptrs with
  | [] => (bag, [])
  | p :: rest =>
    let fst := retire_pp guarded p boxDeleter bag
    let snd := retirePPMany guarded rest fst.1
    (snd.1, fst.2 ++ snd.2)

/-- try_unlink (local.rs, free function): acquire one guard per link
address, protecting it; invoke the removal closure once (modelled by its
boolean result, since its side effects live in the external structure).
On success: mark every to-be-unlinked address, append the guards to the
thread bag, retire every to-be-unlinked address through retire_pp.  On
failure: drop the guards and leave the bag untouched.  Returns the
closure's flag. -/
def try_unlink (guarded : List Nat) (links to_be_unlinked : List Nat)
    (do_unlink : Bool) (bag : LocalBag) : Bool × LocalBag × List Event :=
  let hps : List HazardPtr := links.map (fun a => ⟨a⟩)
  let protectEvs : List Event := links.map (fun a => Event.protect ⟨a⟩ a)
  let unlinked := do_unlink
  if unlinked then
    let markEvs : List Event := to_be_unlinked.map Event.mark
    let bag1 : LocalBag := { bag with hps := bag.hps ++ hps }
    let res := retirePPMany guarded to_be_unlinked bag1
    (true, res.1,
     protectEvs ++ Event.invokeUnlink :: markEvs ++ Event.transferHps hps :: res.2)
  else
    (false, bag, protectEvs ++ [Event.invokeUnlink, Event.dropHps hps])

/-- impl Drop for LocalBag: repeat do_reclamation while the retired list is
nonempty.  Each loop iteration reads a fresh registry snapshot; the list of
snapshots supplies them, and running out of snapshots while records remain
models the loop not having terminated yet. -/
def teardownLoop (snapshots : List (List Nat)) (bag : LocalBag) :
    Option (LocalBag × List Event) :=
  match snapshots with
  | [] => if bag.retired.isEmpty then some (bag, []) else none
  | g :: rest =>
    if bag.retired.isEmpty then some (bag, []) else
      match teardownLoop rest (do_reclamation g bag).1 with
      | some res => some (res.1, (do_reclamation g bag).2 ++ res.2)
      | none => none

/-! ### Operation sequences (whole-lifetime runs for the exactly-once-free property) -/

/-- One bag operation, tagged with the registry snapshot any reclamation
pass it triggers would observe. -/
inductive Op where
  | opRetire (guarded : List Nat) (ptr deleter : Nat)
  | opRetirePP (guarded : List Nat) (ptr deleter : Nat)
  | opTryUnlink (guarded : List Nat) (links unlinked : List Nat) (ok : Bool)
deriving Repr, DecidableEq

/-- Apply one operation to the bag. -/
def applyOp (bag : LocalBag) : Op → LocalBag × List Event
  | .opRetire g p d => retire g p d bag
  | .opRetirePP g p d => retire_pp g p d bag
  | .opTryUnlink g ls us ok =>
    let t := try_unlink g ls us ok bag
    (t.2.1, t.2.2)

/-- Run a sequence of operations, concatenating the event traces. -/
def run (bag : LocalBag) : List Op → LocalBag × List Event
  | [] => (bag, [])
  | op :: rest =>
    let fst := applyOp bag op
    let snd := run fst.1 rest
    (snd.1, fst.2 ++ snd.2)

/-! ### Helper lemmas -/

theorem reclaimFilter_fst (g : List Nat) (l : List LocalRetired) :
    (reclaimFilter g l).1 = l.filter (fun e => g.contains e.ptr) := by
  induction l with
  | nil => rfl
  | cons e rest ih =>
    rw [reclaimFilter, List.filter_cons]
    split
    · simpa using ih
    · simpa using ih

theorem reclaimFilter_snd_mem (g : List Nat) (l : List LocalRetired) (e : Event)
    (h : e ∈ (reclaimFilter g l).2) :
    ∃ r, e = Event.free r ∧ g.contains r.ptr = false ∧ r ∈ l := by
  induction l with
  | nil => simp [reclaimFilter] at h
  | cons x rest ih =>
    rw [reclaimFilter] at h
    split at h
    · obtain ⟨r, hr1, hr2, hr3⟩ := ih h
      exact ⟨r, hr1, hr2, List.mem_cons_of_mem _ hr3⟩
    next hx =>
      simp only [List.mem_cons] at h
      rcases h with h | h
      · exact ⟨x, h, by simpa using hx, List.mem_cons_self _ _⟩
      · obtain ⟨r, hr1, hr2, hr3⟩ := ih h
        exact ⟨r, hr1, hr2, List.mem_cons_of_mem _ hr3⟩

theorem count_free_free (x r : LocalRetired) :
    (Event.free x == Event.free r) = (x == r) := by
  cases hxr : x == r
  · simp only [beq_eq_false_iff_ne, ne_eq] at hxr ⊢
    intro hc
    exact hxr (by injection hc)
  · simp only [beq_iff_eq] at hxr
    simp [hxr]

theorem reclaimFilter_balance (g : List Nat) (l : List LocalRetired) (r : LocalRetired) :
    (reclaimFilter g l).2.count (Event.free r) + (reclaimFilter g l).1.count r
      = l.count r := by
  induction l with
  | nil => rfl
  | cons x rest ih =>
    rw [reclaimFilter]
    split
    · simp only [List.count_cons]
      omega
    · simp only [List.count_cons, count_free_free]
      omega

theorem reclaimFilter_count_notfree (g : List Nat) (l : List LocalRetired) (e : Event)
    (h : ∀ r, e ≠ Event.free r) :
    (reclaimFilter g l).2.count e = 0 := by
  rw [List.count_eq_zero]
  intro hmem
  obtain ⟨r, hr, -, -⟩ := reclaimFilter_snd_mem g l e hmem
  exact h r hr

theorem count_cons_ne {α : Type} [BEq α] (a b : α) (l : List α) (h : (b == a) = false) :
    (b :: l).count a = l.count a := by
  simp [List.count_cons, h]

theorem count_push_push (x r : LocalRetired) :
    (Event.pushRetired x == Event.pushRetired r) = (x == r) := by
  cases hxr : x == r
  · simp only [beq_eq_false_iff_ne, ne_eq] at hxr ⊢
    intro hc
    exact hxr (by injection hc)
  · simp only [beq_iff_eq] at hxr
    simp [hxr]

theorem count_map_zero {α : Type} (f : α → Event) (l : List α) (e : Event)
    (h : ∀ x, (f x == e) = false) : (l.map f).count e = 0 := by
  induction l with
  | nil => rfl
  | cons x rest ih => rw [List.map_cons, count_cons_ne _ _ _ (h x)]; exact ih

theorem do_reclamation_balance (g : List Nat) (bag : LocalBag) (r : LocalRetired) :
    (do_reclamation g bag).2.count (Event.free r) + (do_reclamation g bag).1.retired.count r
      = bag.retired.count r := by
  show (Event.heavyBarrier :: Event.collectGuardedPtrs :: (reclaimFilter g bag.retired).2).count
        (Event.free r) + (reclaimFilter g bag.retired).1.count r = bag.retired.count r
  rw [count_cons_ne _ _ _ rfl, count_cons_ne _ _ _ rfl]
  exact reclaimFilter_balance g bag.retired r

theorem do_reclamation_pp_balance (g : List Nat) (bag : LocalBag) (r : LocalRetired) :
    (do_reclamation_pp g bag).2.count (Event.free r)
      + (do_reclamation_pp g bag).1.retired.count r = bag.retired.count r := by
  show (Event.heavyBarrier :: Event.dropHps bag.hps :: Event.collectGuardedPtrs ::
        (reclaimFilter g bag.retired).2).count (Event.free r)
      + (reclaimFilter g bag.retired).1.count r = bag.retired.count r
  rw [count_cons_ne _ _ _ rfl, count_cons_ne _ _ _ rfl, count_cons_ne _ _ _ rfl]
  exact reclaimFilter_balance g bag.retired r

theorem do_reclamation_count_other (g : List Nat) (bag : LocalBag) (e : Event)
    (h1 : e ≠ Event.heavyBarrier) (h2 : e ≠ Event.collectGuardedPtrs)
    (h3 : ∀ r, e ≠ Event.free r) :
    (do_reclamation g bag).2.count e = 0 := by
  rw [List.count_eq_zero]
  intro hmem
  have hmem2 : e = Event.heavyBarrier ∨ e = Event.collectGuardedPtrs
      ∨ e ∈ (reclaimFilter g bag.retired).2 := by
    simpa [do_reclamation, List.mem_cons] using hmem
  rcases hmem2 with h | h | h
  · exact h1 h
  · exact h2 h
  · obtain ⟨r, hr, -, -⟩ := reclaimFilter_snd_mem g bag.retired e h
    exact h3 r hr

theorem do_reclamation_pp_count_other (g : List Nat) (bag : LocalBag) (e : Event)
    (h1 : e ≠ Event.heavyBarrier) (h2 : e ≠ Event.collectGuardedPtrs)
    (h3 : ∀ r, e ≠ Event.free r) (h4 : ∀ gs, e ≠ Event.dropHps gs) :
    (do_reclamation_pp g bag).2.count e = 0 := by
  rw [List.count_eq_zero]
  intro hmem
  have hmem2 : e = Event.heavyBarrier ∨ e = Event.dropHps bag.hps
      ∨ e = Event.collectGuardedPtrs ∨ e ∈ (reclaimFilter g bag.retired).2 := by
    simpa [do_reclamation_pp, List.mem_cons] using hmem
  rcases hmem2 with h | h | h | h
  · exact h1 h
  · exact h4 _ h
  · exact h2 h
  · obtain ⟨r, hr, -, -⟩ := reclaimFilter_snd_mem g bag.retired e h
    exact h3 r hr

theorem retire_eq_generic (g : List Nat) (p d : Nat) (bag : LocalBag) :
    retire g p d bag = retireGeneric do_reclamation g p d bag := rfl

theorem retire_pp_eq_generic (g : List Nat) (p d : Nat) (bag : LocalBag) :
    retire_pp g p d bag = retireGeneric do_reclamation_pp g p d bag := rfl

theorem retire_count_push (g : List Nat) (p d : Nat) (bag : LocalBag) (r : LocalRetired) :
    (retire g p d bag).2.count (Event.pushRetired r)
      = if (⟨p, d⟩ : LocalRetired) == r then 1 else 0 := by
  rw [retire]
  split
  · rw [List.count_cons,
      do_reclamation_count_other _ _ _ (by simp) (by simp) (fun s => by simp),
      count_push_push]
    cases (⟨p, d⟩ : LocalRetired) == r <;> simp
  · rw [List.count_cons, List.count_nil, count_push_push]
    cases (⟨p, d⟩ : LocalRetired) == r <;> simp

theorem retire_pp_count_push (g : List Nat) (p d : Nat) (bag : LocalBag) (r : LocalRetired) :
    (retire_pp g p d bag).2.count (Event.pushRetired r)
      = if (⟨p, d⟩ : LocalRetired) == r then 1 else 0 := by
  rw [retire_pp]
  split
  · rw [List.count_cons,
      do_reclamation_pp_count_other _ _ _ (by simp) (by simp) (fun s => by simp)
        (fun gs => by simp),
      count_push_push]
    cases (⟨p, d⟩ : LocalRetired) == r <;> simp
  · rw [List.count_cons, List.count_nil, count_push_push]
    cases (⟨p, d⟩ : LocalRetired) == r <;> simp

theorem count_singleton_beq {α : Type} [BEq α] (a b : α) :
    ([b] : List α).count a = if b == a then 1 else 0 := by
  simp [List.count_cons]

theorem beq_mk_same (p a d : Nat) :
    ((⟨p, d⟩ : LocalRetired) == ⟨a, d⟩) = (p == a) := by
  cases hpa : p == a
  · simp only [beq_eq_false_iff_ne, ne_eq] at hpa ⊢
    intro hc
    exact hpa (by injection hc)
  · simp only [beq_iff_eq] at hpa
    simp [hpa]

theorem retire_balance (g : List Nat) (p d : Nat) (bag : LocalBag) (r : LocalRetired) :
    (retire g p d bag).2.count (Event.free r) + (retire g p d bag).1.retired.count r
      = bag.retired.count r + (retire g p d bag).2.count (Event.pushRetired r) := by
  rw [retire_count_push, retire]
  split
  · rw [count_cons_ne _ _ _ rfl, do_reclamation_balance]
    show (bag.retired ++ [(⟨p, d⟩ : LocalRetired)]).count r = _
    rw [List.count_append, count_singleton_beq]
  · rw [count_cons_ne _ _ _ rfl, List.count_nil]
    show 0 + (bag.retired ++ [(⟨p, d⟩ : LocalRetired)]).count r = _
    rw [List.count_append, count_singleton_beq]
    omega

theorem retire_pp_balance (g : List Nat) (p d : Nat) (bag : LocalBag) (r : LocalRetired) :
    (retire_pp g p d bag).2.count (Event.free r) + (retire_pp g p d bag).1.retired.count r
      = bag.retired.count r + (retire_pp g p d bag).2.count (Event.pushRetired r) := by
  rw [retire_pp_count_push, retire_pp]
  split
  · rw [count_cons_ne _ _ _ rfl, do_reclamation_pp_balance]
    show (bag.retired ++ [(⟨p, d⟩ : LocalRetired)]).count r = _
    rw [List.count_append, count_singleton_beq]
  · rw [count_cons_ne _ _ _ rfl, List.count_nil]
    show 0 + (bag.retired ++ [(⟨p, d⟩ : LocalRetired)]).count r = _
    rw [List.count_append, count_singleton_beq]
    omega

theorem retire_pp_count_other (g : List Nat) (p d : Nat) (bag : LocalBag) (e : Event)
    (h0 : ∀ r, e ≠ Event.pushRetired r) (h1 : e ≠ Event.heavyBarrier)
    (h2 : e ≠ Event.collectGuardedPtrs) (h3 : ∀ r, e ≠ Event.free r)
    (h4 : ∀ gs, e ≠ Event.dropHps gs) :
    (retire_pp g p d bag).2.count e = 0 := by
  have hb : (Event.pushRetired ⟨p, d⟩ == e) = false :=
    beq_eq_false_iff_ne.mpr (fun hc => h0 _ hc.symm)
  rw [retire_pp]
  split
  · rw [count_cons_ne _ _ _ hb]
    exact do_reclamation_pp_count_other _ _ _ h1 h2 h3 h4
  · rw [count_cons_ne _ _ _ hb, List.count_nil]

theorem retirePPMany_count_push (g : List Nat) (l : List Nat) (bag : LocalBag) (a : Nat) :
    (retirePPMany g l bag).2.count (Event.pushRetired ⟨a, boxDeleter⟩) = l.count a := by
  induction l generalizing bag with
  | nil => rfl
  | cons p rest ih =>
    rw [retirePPMany]
    show ((retire_pp g p boxDeleter bag).2
        ++ (retirePPMany g rest (retire_pp g p boxDeleter bag).1).2).count _ = _
    rw [List.count_append, retire_pp_count_push, ih, List.count_cons, beq_mk_same]
    cases hpa : p == a
    · simp [hpa]
    · simp only [hpa, if_pos]
      omega

theorem retirePPMany_balance (g : List Nat) (l : List Nat) (bag : LocalBag)
    (r : LocalRetired) :
    (retirePPMany g l bag).2.count (Event.free r) + (retirePPMany g l bag).1.retired.count r
      = bag.retired.count r + (retirePPMany g l bag).2.count (Event.pushRetired r) := by
  induction l generalizing bag with
  | nil => simp [retirePPMany]
  | cons p rest ih =>
    rw [retirePPMany]
    show ((retire_pp g p boxDeleter bag).2
          ++ (retirePPMany g rest (retire_pp g p boxDeleter bag).1).2).count _
        + (retirePPMany g rest (retire_pp g p boxDeleter bag).1).1.retired.count r
      = _ + ((retire_pp g p boxDeleter bag).2
          ++ (retirePPMany g rest (retire_pp g p boxDeleter bag).1).2).count _
    rw [List.count_append, List.count_append]
    have h1 := retire_pp_balance g p boxDeleter bag r
    have h2 := ih (retire_pp g p boxDeleter bag).1
    omega

theorem retirePPMany_count_other (g : List Nat) (l : List Nat) (bag : LocalBag) (e : Event)
    (h0 : ∀ r, e ≠ Event.pushRetired r) (h1 : e ≠ Event.heavyBarrier)
    (h2 : e ≠ Event.collectGuardedPtrs) (h3 : ∀ r, e ≠ Event.free r)
    (h4 : ∀ gs, e ≠ Event.dropHps gs) :
    (retirePPMany g l bag).2.count e = 0 := by
  induction l generalizing bag with
  | nil => rfl
  | cons p rest ih =>
    rw [retirePPMany]
    show ((retire_pp g p boxDeleter bag).2
        ++ (retirePPMany g rest (retire_pp g p boxDeleter bag).1).2).count _ = _
    rw [List.count_append, retire_pp_count_other _ _ _ _ _ h0 h1 h2 h3 h4, ih]

theorem try_unlink_false_result (g ls us : List Nat) (bag : LocalBag) :
    try_unlink g ls us false bag
      = (false, bag, ls.map (fun a => Event.protect ⟨a⟩ a)
          ++ [Event.invokeUnlink, Event.dropHps (ls.map (fun a => ⟨a⟩))]) := rfl

theorem try_unlink_true_result (g ls us : List Nat) (bag : LocalBag) :
    try_unlink g ls us true bag
      = (true, (retirePPMany g us { bag with hps := bag.hps ++ ls.map (fun a => ⟨a⟩) }).1,
         ls.map (fun a => Event.protect ⟨a⟩ a)
           ++ (Event.invokeUnlink :: us.map Event.mark)
           ++ (Event.transferHps (ls.map (fun a => ⟨a⟩)) ::
             (retirePPMany g us { bag with hps := bag.hps ++ ls.map (fun a => ⟨a⟩) }).2)) := rfl

theorem applyOp_balance (bag : LocalBag) (op : Op) (r : LocalRetired) :
    (applyOp bag op).2.count (Event.free r) + (applyOp bag op).1.retired.count r
      = bag.retired.count r + (applyOp bag op).2.count (Event.pushRetired r) := by
  cases op with
  | opRetire g p d => exact retire_balance g p d bag r
  | opRetirePP g p d => exact retire_pp_balance g p d bag r
  | opTryUnlink g ls us ok =>
    have hA : applyOp bag (Op.opTryUnlink g ls us ok)
        = ((try_unlink g ls us ok bag).2.1, (try_unlink g ls us ok bag).2.2) := rfl
    rw [hA]
    cases ok with
    | false =>
      rw [try_unlink_false_result]
      rw [List.count_append, List.count_append,
        count_map_zero (fun a => Event.protect ⟨a⟩ a) ls (Event.free r) (fun x => rfl),
        count_map_zero (fun a => Event.protect ⟨a⟩ a) ls (Event.pushRetired r) (fun x => rfl),
        count_cons_ne (Event.free r) Event.invokeUnlink _ rfl,
        count_cons_ne (Event.pushRetired r) Event.invokeUnlink _ rfl,
        count_cons_ne (Event.free r) (Event.dropHps (ls.map (fun a => ⟨a⟩))) _ rfl,
        count_cons_ne (Event.pushRetired r) (Event.dropHps (ls.map (fun a => ⟨a⟩))) _ rfl,
        List.count_nil]
      simp
    | true =>
      rw [try_unlink_true_result]
      simp only [List.count_append,
        count_map_zero (fun a => Event.protect ⟨a⟩ a) ls (Event.free r) (fun x => rfl),
        count_map_zero (fun a => Event.protect ⟨a⟩ a) ls (Event.pushRetired r) (fun x => rfl),
        count_map_zero Event.mark us (Event.free r) (fun x => rfl),
        count_map_zero Event.mark us (Event.pushRetired r) (fun x => rfl),
        count_cons_ne (Event.free r) Event.invokeUnlink (us.map Event.mark) rfl,
        count_cons_ne (Event.pushRetired r) Event.invokeUnlink (us.map Event.mark) rfl,
        count_cons_ne (Event.free r) (Event.transferHps (ls.map (fun a => ⟨a⟩)))
          (retirePPMany g us { bag with hps := bag.hps ++ ls.map (fun a => ⟨a⟩) }).2 rfl,
        count_cons_ne (Event.pushRetired r) (Event.transferHps (ls.map (fun a => ⟨a⟩)))
          (retirePPMany g us { bag with hps := bag.hps ++ ls.map (fun a => ⟨a⟩) }).2 rfl]
      have hbal := retirePPMany_balance g us
        { bag with hps := bag.hps ++ ls.map (fun a => ⟨a⟩) } r
      have hret : ({ bag with hps := bag.hps ++ ls.map (fun a => ⟨a⟩) } : LocalBag).retired
          = bag.retired := rfl
      rw [hret] at hbal
      omega

theorem run_balance (ops : List Op) (bag : LocalBag) (r : LocalRetired) :
    (run bag ops).2.count (Event.free r) + (run bag ops).1.retired.count r
      = bag.retired.count r + (run bag ops).2.count (Event.pushRetired r) := by
  induction ops generalizing bag with
  | nil => simp [run]
  | cons op rest ih =>
    rw [run]
    show ((applyOp bag op).2 ++ (run (applyOp bag op).1 rest).2).count _
        + (run (applyOp bag op).1 rest).1.retired.count r
      = _ + ((applyOp bag op).2 ++ (run (applyOp bag op).1 rest).2).count _
    rw [List.count_append, List.count_append]
    have h1 := applyOp_balance bag op r
    have h2 := ih (applyOp bag op).1
    omega

theorem teardown_balance (snaps : List (List Nat)) (bag bag2 : LocalBag) (evs : List Event)
    (h : teardownLoop snaps bag = some (bag2, evs)) :
    bag2.retired = [] ∧ (∀ r, evs.count (Event.free r) = bag.retired.count r)
      ∧ (∀ r, evs.count (Event.pushRetired r) = 0) := by
  induction snaps generalizing bag evs with
  | nil =>
    rw [teardownLoop] at h
    split at h
    next hemp =>
      simp only [Option.some.injEq, Prod.mk.injEq] at h
      obtain ⟨hb, he⟩ := h
      subst hb
      subst he
      rw [List.isEmpty_iff] at hemp
      refine ⟨hemp, fun r => ?_, fun r => rfl⟩
      rw [hemp, List.count_nil, List.count_nil]
    next => exact absurd h (by simp)
  | cons g rest ih =>
    rw [teardownLoop] at h
    split at h
    next hemp =>
      simp only [Option.some.injEq, Prod.mk.injEq] at h
      obtain ⟨hb, he⟩ := h
      subst hb
      subst he
      rw [List.isEmpty_iff] at hemp
      refine ⟨hemp, fun r => ?_, fun r => rfl⟩
      rw [hemp, List.count_nil, List.count_nil]
    next hemp =>
      split at h
      next res hrec =>
        obtain ⟨bagr, evsr⟩ := res
        simp only [Option.some.injEq, Prod.mk.injEq] at h
        obtain ⟨hb, he⟩ := h
        subst hb
        subst he
        obtain ⟨ih1, ih2, ih3⟩ := ih (do_reclamation g bag).1 evsr hrec
        refine ⟨ih1, fun r => ?_, fun r => ?_⟩
        · rw [List.count_append, ih2 r]
          have hbal := do_reclamation_balance g bag r
          omega
        · rw [List.count_append, ih3 r,
            do_reclamation_count_other _ _ _ (by simp) (by simp) (fun s => by simp)]
      next hrec => exact absurd h (by simp)

theorem count_filter_true (p : LocalRetired → Bool) (l : List LocalRetired)
    (r : LocalRetired) (h : p r = true) : (l.filter p).count r = l.count r := by
  induction l with
  | nil => rfl
  | cons x rest ih =>
    rw [List.filter_cons]
    cases hx : p x
    · rw [if_neg Bool.false_ne_true]
      have hxr : (x == r) = false := by
        cases hxr : x == r
        · rfl
        · rw [beq_iff_eq.mp hxr] at hx
          rw [hx] at h
          exact absurd h (by simp)
      rw [count_cons_ne _ _ _ hxr]
      exact ih
    · rw [if_pos rfl, List.count_cons, List.count_cons, ih]

theorem count_filter_false (p : LocalRetired → Bool) (l : List LocalRetired)
    (r : LocalRetired) (h : p r = false) : (l.filter p).count r = 0 := by
  induction l with
  | nil => rfl
  | cons x rest ih =>
    rw [List.filter_cons]
    cases hx : p x
    · rw [if_neg Bool.false_ne_true]
      exact ih
    · rw [if_pos rfl]
      have hxr : (x == r) = false := by
        cases hxr : x == r
        · rfl
        · rw [beq_iff_eq.mp hxr] at hx
          rw [hx] at h
          exact absurd h (by simp)
      rw [count_cons_ne _ _ _ hxr]
      exact ih

theorem beq_mark_mark (x a : Nat) : (Event.mark x == Event.mark a) = (x == a) := by
  cases hxa : x == a
  · simp only [beq_eq_false_iff_ne, ne_eq] at hxa ⊢
    intro hc
    exact hxa (by injection hc)
  · simp only [beq_iff_eq] at hxa
    simp [hxa]

theorem count_mark_map (us : List Nat) (a : Nat) :
    (us.map Event.mark).count (Event.mark a) = us.count a := by
  induction us with
  | nil => rfl
  | cons x rest ih =>
    rw [List.map_cons, List.count_cons, List.count_cons, beq_mark_mark, ih]

/-! ### The claims -/

/-- Claim C1: in every reclamation pass (both do_reclamation and
do_reclamation_pp) the bag's retired records are partitioned against the
guarded-address set: every record whose address is in the guarded set is
kept, every record whose address is not in the guarded set has its
destructor invoked exactly once during that pass and is removed, and the
record collection is replaced by exactly the kept subset. -/
theorem C1_reclamation_partition (g : List Nat) (bag : LocalBag) (r : LocalRetired) :
    (do_reclamation g bag).1.retired = bag.retired.filter (fun e => g.contains e.ptr)
  ∧ (do_reclamation_pp g bag).1.retired = bag.retired.filter (fun e => g.contains e.ptr)
  ∧ (g.contains r.ptr = true →
      (do_reclamation g bag).2.count (Event.free r) = 0
    ∧ (do_reclamation_pp g bag).2.count (Event.free r) = 0)
  ∧ (g.contains r.ptr = false →
      (do_reclamation g bag).2.count (Event.free r) = bag.retired.count r
    ∧ (do_reclamation_pp g bag).2.count (Event.free r) = bag.retired.count r) := by
  have hkept : (do_reclamation g bag).1.retired
      = bag.retired.filter (fun e => g.contains e.ptr) := by
    show (reclaimFilter g bag.retired).1 = _
    exact reclaimFilter_fst g bag.retired
  have hkeptpp : (do_reclamation_pp g bag).1.retired
      = bag.retired.filter (fun e => g.contains e.ptr) := by
    show (reclaimFilter g bag.retired).1 = _
    exact reclaimFilter_fst g bag.retired
  have hbal := do_reclamation_balance g bag r
  have hbalpp := do_reclamation_pp_balance g bag r
  refine ⟨hkept, hkeptpp, fun hin => ?_, fun hout => ?_⟩
  · have hc : (do_reclamation g bag).1.retired.count r = bag.retired.count r := by
      rw [hkept]
      exact count_filter_true _ _ _ hin
    have hcpp : (do_reclamation_pp g bag).1.retired.count r = bag.retired.count r := by
      rw [hkeptpp]
      exact count_filter_true _ _ _ hin
    omega
  · have hc : (do_reclamation g bag).1.retired.count r = 0 := by
      rw [hkept]
      exact count_filter_false _ _ _ hout
    have hcpp : (do_reclamation_pp g bag).1.retired.count r = 0 := by
      rw [hkeptpp]
      exact count_filter_false _ _ _ hout
    omega

/-- Witness for C1 at a concrete bag holding records at addresses 5 and 7
with only address 5 guarded. -/
theorem C1_reclamation_partition_witness :
    ((do_reclamation [5] ⟨[⟨5, 0⟩, ⟨7, 1⟩], [], 0⟩).2.count (Event.free ⟨5, 0⟩) = 0
    ∧ (do_reclamation_pp [5] ⟨[⟨5, 0⟩, ⟨7, 1⟩], [], 0⟩).2.count (Event.free ⟨5, 0⟩) = 0)
  ∧ ((do_reclamation [5] ⟨[⟨5, 0⟩, ⟨7, 1⟩], [], 0⟩).2.count (Event.free ⟨7, 1⟩)
      = (⟨[⟨5, 0⟩, ⟨7, 1⟩], [], 0⟩ : LocalBag).retired.count ⟨7, 1⟩
    ∧ (do_reclamation_pp [5] ⟨[⟨5, 0⟩, ⟨7, 1⟩], [], 0⟩).2.count (Event.free ⟨7, 1⟩)
      = (⟨[⟨5, 0⟩, ⟨7, 1⟩], [], 0⟩ : LocalBag).retired.count ⟨7, 1⟩) :=
  ⟨(C1_reclamation_partition [5] ⟨[⟨5, 0⟩, ⟨7, 1⟩], [], 0⟩ ⟨5, 0⟩).2.2.1 (by decide),
   (C1_reclamation_partition [5] ⟨[⟨5, 0⟩, ⟨7, 1⟩], [], 0⟩ ⟨7, 1⟩).2.2.2 (by decide)⟩

/-- Claim C2: every call to retire (and retire_pp) appends exactly one new
RetiredRecord, advances the retirement counter by one (wrapping usize
arithmetic), and triggers a reclamation pass (whose marker is the heavy
barrier) if and only if the advanced counter is at a multiple of the batch
threshold COUNTS_BETWEEN_COLLECT = 128; on a call where the threshold is
not reached, the only effect is the append. -/
theorem C2_retire_batching (g : List Nat) (p d : Nat) (bag : LocalBag) :
    (retire g p d bag).1.collect_count = (bag.collect_count + 1) % USIZE_MOD
  ∧ (retire_pp g p d bag).1.collect_count = (bag.collect_count + 1) % USIZE_MOD
  ∧ (∀ r, (retire g p d bag).2.count (Event.pushRetired r)
        = if (⟨p, d⟩ : LocalRetired) == r then 1 else 0)
  ∧ (∀ r, (retire_pp g p d bag).2.count (Event.pushRetired r)
        = if (⟨p, d⟩ : LocalRetired) == r then 1 else 0)
  ∧ (Event.heavyBarrier ∈ (retire g p d bag).2
       ↔ ((bag.collect_count + 1) % USIZE_MOD) % COUNTS_BETWEEN_COLLECT = 0)
  ∧ (Event.heavyBarrier ∈ (retire_pp g p d bag).2
       ↔ ((bag.collect_count + 1) % USIZE_MOD) % COUNTS_BETWEEN_COLLECT = 0)
  ∧ (((bag.collect_count + 1) % USIZE_MOD) % COUNTS_BETWEEN_COLLECT ≠ 0 →
       (retire g p d bag).1.retired = bag.retired ++ [⟨p, d⟩]
     ∧ (retire g p d bag).2 = [Event.pushRetired ⟨p, d⟩]
     ∧ (retire_pp g p d bag).1.retired = bag.retired ++ [⟨p, d⟩]
     ∧ (retire_pp g p d bag).2 = [Event.pushRetired ⟨p, d⟩]) := by
  refine ⟨?_, ?_, retire_count_push g p d bag, retire_pp_count_push g p d bag,
    ?_, ?_, fun hne => ?_⟩
  · rw [retire]
    split
    · rfl
    · rfl
  · rw [retire_pp]
    split
    · rfl
    · rfl
  · rw [retire]
    split
    next hc =>
      simp only [hc, iff_true]
      exact List.mem_cons_of_mem _ (List.mem_cons_self _ _)
    next hc =>
      simp only [List.mem_singleton]
      exact iff_of_false (by simp) hc
  · rw [retire_pp]
    split
    next hc =>
      simp only [hc, iff_true]
      exact List.mem_cons_of_mem _ (List.mem_cons_self _ _)
    next hc =>
      simp only [List.mem_singleton]
      exact iff_of_false (by simp) hc
  · refine ⟨?_, ?_, ?_, ?_⟩
    · rw [retire, if_neg hne]
    · rw [retire, if_neg hne]
    · rw [retire_pp, if_neg hne]
    · rw [retire_pp, if_neg hne]

/-- Witness for C2 on a fresh bag (counter reaches 1, below the
threshold): only one record is appended and no pass runs. -/
theorem C2_retire_batching_witness :
    (retire [] 7 0 LocalBag.new).1.retired = LocalBag.new.retired ++ [⟨7, 0⟩]
  ∧ (retire [] 7 0 LocalBag.new).2 = [Event.pushRetired ⟨7, 0⟩]
  ∧ (retire_pp [] 7 0 LocalBag.new).1.retired = LocalBag.new.retired ++ [⟨7, 0⟩]
  ∧ (retire_pp [] 7 0 LocalBag.new).2 = [Event.pushRetired ⟨7, 0⟩] :=
  (C2_retire_batching [] 7 0 LocalBag.new).2.2.2.2.2.2 (by decide)

/-- Claim C10: retire and retire_pp construct identical retired records
(same address, same type-erased deleter for the same pointer type and
ownership mode) and update the counter identically; each is the generic
push-bump-maybe-collect shape instantiated with its reclamation routine,
and below the threshold the two calls have exactly the same effect. -/
theorem C10_retire_retire_pp_refinement (g : List Nat) (p d : Nat) (bag : LocalBag) :
    retire g p d bag = retireGeneric do_reclamation g p d bag
  ∧ retire_pp g p d bag = retireGeneric do_reclamation_pp g p d bag
  ∧ (retire g p d bag).1.collect_count = (retire_pp g p d bag).1.collect_count
  ∧ (retire g p d bag).2.head? = some (Event.pushRetired ⟨p, d⟩)
  ∧ (retire_pp g p d bag).2.head? = some (Event.pushRetired ⟨p, d⟩)
  ∧ (((bag.collect_count + 1) % USIZE_MOD) % COUNTS_BETWEEN_COLLECT ≠ 0 →
      retire g p d bag = retire_pp g p d bag) := by
  refine ⟨retire_eq_generic g p d bag, retire_pp_eq_generic g p d bag, ?_, ?_, ?_,
    fun hne => ?_⟩
  · rw [retire, retire_pp]
    by_cases hc : ((bag.collect_count + 1) % USIZE_MOD) % COUNTS_BETWEEN_COLLECT = 0
    · rw [if_pos hc, if_pos hc]
      rfl
    · rw [if_neg hc, if_neg hc]
  · rw [retire]
    split
    · rfl
    · rfl
  · rw [retire_pp]
    split
    · rfl
    · rfl
  · rw [retire, retire_pp, if_neg hne, if_neg hne]

/-- Witness for C10 on a fresh bag, whose first retirement is below the
threshold: the two operations agree exactly. -/
theorem C10_retire_retire_pp_refinement_witness :
    retire [] 1 2 LocalBag.new = retire_pp [] 1 2 LocalBag.new :=
  (C10_retire_retire_pp_refinement [] 1 2 LocalBag.new).2.2.2.2.2 (by decide)

/-- Phase 1 of the spec's second concrete scenario: guard G protects
address 1000 (= A); retire A and then 127 other unguarded addresses
1..127, reaching the batch threshold. -/
def c3Phase1 : LocalBag × List Event :=
  retireMany [1000] (1000 :: (List.range 127).map (fun i => i + 1)) LocalBag.new

/-- Phase 2 as the claim states it: release G (registry snapshot is now
empty) and retire one more unguarded address, 5000. -/
def c3Phase2 : LocalBag × List Event :=
  retire [] 5000 boxDeleter c3Phase1.1

/-- Phase 2 as the code actually behaves: after releasing G, 128 more
retirements are needed before the counter reaches the next multiple of
the threshold. -/
def c3Phase2b : LocalBag × List Event :=
  retireMany [] ((List.range 128).map (fun i => i + 5000)) c3Phase1.1

set_option maxRecDepth 20000 in
/-- Counterexample to claim C3: after the first pass keeps A, releasing G
and retiring ONE more unguarded address does not reach the threshold (the
counter is at 129, not a multiple of 128), so no reclamation pass runs, A
is not freed, and the bag holds 2 records rather than 0. -/
theorem C3_counterexample :
    c3Phase1.1.retired = [⟨1000, boxDeleter⟩]
  ∧ c3Phase2.1.retired = [⟨1000, boxDeleter⟩, ⟨5000, boxDeleter⟩]
  ∧ c3Phase2.2 = [Event.pushRetired ⟨5000, boxDeleter⟩]
  ∧ Event.heavyBarrier ∉ c3Phase2.2
  ∧ Event.free ⟨1000, boxDeleter⟩ ∉ c3Phase2.2 := by
  decide

set_option maxRecDepth 20000 in
/-- Claim C3 as amended: starting from a fresh bag where guard G protects
address A: after retiring A and 127 other unguarded addresses, a
reclamation pass runs that keeps A and frees the 127 others; then, after
releasing G, retiring 128 more unguarded addresses reaches the threshold
again, triggers another reclamation pass, A is freed, and the bag holds 0
records. -/
theorem C3_amended_scenario :
    c3Phase1.1.retired = [⟨1000, boxDeleter⟩]
  ∧ Event.heavyBarrier ∈ c3Phase1.2
  ∧ (c3Phase1.2.filter
       (fun e => match e with | Event.free _ => true | _ => false)).length = 127
  ∧ Event.free ⟨1000, boxDeleter⟩ ∉ c3Phase1.2
  ∧ Event.heavyBarrier ∈ c3Phase2b.2
  ∧ Event.free ⟨1000, boxDeleter⟩ ∈ c3Phase2b.2
  ∧ c3Phase2b.1.retired = [] := by
  decide

theorem try_unlink_true_evs (g ls us : List Nat) (bag : LocalBag) :
    (try_unlink g ls us true bag).2.2
      = ls.map (fun a => Event.protect ⟨a⟩ a)
        ++ (Event.invokeUnlink :: us.map Event.mark)
        ++ (Event.transferHps (ls.map (fun a => ⟨a⟩)) ::
            (retirePPMany g us { bag with hps := bag.hps ++ ls.map (fun a => ⟨a⟩) }).2) := rfl

theorem try_unlink_false_evs (g ls us : List Nat) (bag : LocalBag) :
    (try_unlink g ls us false bag).2.2
      = ls.map (fun a => Event.protect ⟨a⟩ a)
        ++ [Event.invokeUnlink, Event.dropHps (ls.map (fun a => ⟨a⟩))] := rfl

/-- Claim C4: try_unlink is atomic with respect to its outcome.  On
success every address in the removal set is marked exactly once and
retired exactly once through retire_pp (with the Box deleter), and the
acquired guards are transferred into the bag; on failure nothing is
marked, nothing is retired, nothing is freed, the bag (pending list and
guard list alike) is unchanged, and the acquired guards are dropped. -/
theorem C4_try_unlink_atomicity (g ls us : List Nat) (bag : LocalBag) :
    (try_unlink g ls us true bag).1 = true
  ∧ (∀ a, (try_unlink g ls us true bag).2.2.count (Event.mark a) = us.count a)
  ∧ (∀ a, (try_unlink g ls us true bag).2.2.count (Event.pushRetired ⟨a, boxDeleter⟩)
        = us.count a)
  ∧ Event.transferHps (ls.map (fun x => (⟨x⟩ : HazardPtr)))
      ∈ (try_unlink g ls us true bag).2.2
  ∧ (try_unlink g ls us false bag).1 = false
  ∧ (try_unlink g ls us false bag).2.1 = bag
  ∧ (∀ a, Event.mark a ∉ (try_unlink g ls us false bag).2.2)
  ∧ (∀ r, Event.pushRetired r ∉ (try_unlink g ls us false bag).2.2)
  ∧ (∀ r, Event.free r ∉ (try_unlink g ls us false bag).2.2)
  ∧ Event.dropHps (ls.map (fun x => (⟨x⟩ : HazardPtr)))
      ∈ (try_unlink g ls us false bag).2.2 := by
  refine ⟨rfl, fun a => ?_, fun a => ?_, ?_, rfl, rfl, fun a hmem => ?_,
    fun r hmem => ?_, fun r hmem => ?_, ?_⟩
  · rw [try_unlink_true_evs, List.count_append, List.count_append,
      count_map_zero (fun x => Event.protect ⟨x⟩ x) ls (Event.mark a) (fun x => rfl),
      count_cons_ne (Event.mark a) Event.invokeUnlink (us.map Event.mark) rfl,
      count_mark_map,
      count_cons_ne (Event.mark a) (Event.transferHps (ls.map (fun x => ⟨x⟩)))
        (retirePPMany g us { bag with hps := bag.hps ++ ls.map (fun x => ⟨x⟩) }).2 rfl,
      retirePPMany_count_other g us _ (Event.mark a) (fun s => by simp) (by simp)
        (by simp) (fun s => by simp) (fun gs => by simp)]
    omega
  · rw [try_unlink_true_evs, List.count_append, List.count_append,
      count_map_zero (fun x => Event.protect ⟨x⟩ x) ls
        (Event.pushRetired ⟨a, boxDeleter⟩) (fun x => rfl),
      count_cons_ne (Event.pushRetired ⟨a, boxDeleter⟩) Event.invokeUnlink
        (us.map Event.mark) rfl,
      count_map_zero Event.mark us (Event.pushRetired ⟨a, boxDeleter⟩) (fun x => rfl),
      count_cons_ne (Event.pushRetired ⟨a, boxDeleter⟩)
        (Event.transferHps (ls.map (fun x => ⟨x⟩)))
        (retirePPMany g us { bag with hps := bag.hps ++ ls.map (fun x => ⟨x⟩) }).2 rfl,
      retirePPMany_count_push]
    omega
  · rw [try_unlink_true_evs]
    exact List.mem_append_right _ (List.mem_cons_self _ _)
  · rw [try_unlink_false_evs] at hmem
    simp [List.mem_append, List.mem_cons, List.mem_map] at hmem
  · rw [try_unlink_false_evs] at hmem
    simp [List.mem_append, List.mem_cons, List.mem_map] at hmem
  · rw [try_unlink_false_evs] at hmem
    simp [List.mem_append, List.mem_cons, List.mem_map] at hmem
  · rw [try_unlink_false_evs]
    exact List.mem_append_right _ (by simp)

/-- Witness for C4 at concrete inputs: links [1, 2], removal set [3]. -/
theorem C4_try_unlink_atomicity_witness :
    (try_unlink [] [1, 2] [3] true LocalBag.new).2.2.count (Event.mark 3)
      = ([3] : List Nat).count 3
  ∧ (try_unlink [] [1, 2] [3] false LocalBag.new).2.1 = LocalBag.new
  ∧ Event.mark 3 ∉ (try_unlink [] [1, 2] [3] false LocalBag.new).2.2 :=
  ⟨(C4_try_unlink_atomicity [] [1, 2] [3] LocalBag.new).2.1 3,
   (C4_try_unlink_atomicity [] [1, 2] [3] LocalBag.new).2.2.2.2.2.1,
   (C4_try_unlink_atomicity [] [1, 2] [3] LocalBag.new).2.2.2.2.2.2.1 3⟩

/-- Claim C5: try_unlink acquires exactly one hazard guard per link
address, protecting that address, all before the removal closure is
invoked (the trace starts with the per-link protect events, then the
single closure invocation); the closure runs exactly once regardless of
outcome, and try_unlink returns exactly the closure's flag. -/
theorem C5_protect_then_unlink (g ls us : List Nat) (b : Bool) (bag : LocalBag) :
    (try_unlink g ls us b bag).1 = b
  ∧ (try_unlink g ls us b bag).2.2.count Event.invokeUnlink = 1
  ∧ ∃ rest, (try_unlink g ls us b bag).2.2
      = ls.map (fun a => Event.protect ⟨a⟩ a) ++ Event.invokeUnlink :: rest := by
  refine ⟨?_, ?_, ?_⟩
  · cases b
    · rfl
    · rfl
  · cases b
    · rw [try_unlink_false_evs, List.count_append,
        count_map_zero (fun a => Event.protect ⟨a⟩ a) ls Event.invokeUnlink (fun x => rfl),
        List.count_cons,
        count_cons_ne Event.invokeUnlink (Event.dropHps (ls.map (fun a => ⟨a⟩))) [] rfl,
        List.count_nil]
      decide
    · rw [try_unlink_true_evs, List.count_append, List.count_append,
        count_map_zero (fun a => Event.protect ⟨a⟩ a) ls Event.invokeUnlink (fun x => rfl),
        List.count_cons,
        count_map_zero Event.mark us Event.invokeUnlink (fun x => rfl),
        count_cons_ne Event.invokeUnlink (Event.transferHps (ls.map (fun a => ⟨a⟩)))
          (retirePPMany g us { bag with hps := bag.hps ++ ls.map (fun a => ⟨a⟩) }).2 rfl,
        retirePPMany_count_other g us _ Event.invokeUnlink (fun s => by simp) (by simp)
          (by simp) (fun s => by simp) (fun gs => by simp)]
      decide
  · cases b
    · exact ⟨[Event.dropHps (ls.map (fun a => ⟨a⟩))], by rw [try_unlink_false_evs]⟩
    · exact ⟨us.map Event.mark ++ (Event.transferHps (ls.map (fun a => ⟨a⟩)) ::
        (retirePPMany g us { bag with hps := bag.hps ++ ls.map (fun a => ⟨a⟩) }).2),
        by rw [try_unlink_true_evs, List.append_assoc, List.cons_append]⟩

/-- Witness for C5 at concrete inputs, failure outcome. -/
theorem C5_protect_then_unlink_witness :
    (try_unlink [] [1] [2] false LocalBag.new).1 = false
  ∧ (try_unlink [] [1] [2] false LocalBag.new).2.2.count Event.invokeUnlink = 1
  ∧ ∃ rest, (try_unlink [] [1] [2] false LocalBag.new).2.2
      = ([1] : List Nat).map (fun a => Event.protect ⟨a⟩ a) ++ Event.invokeUnlink :: rest :=
  C5_protect_then_unlink [] [1] [2] false LocalBag.new

/-- Claim C6: only do_reclamation_pp drops the bag's transferred guards,
and it does so after the heavy barrier and before the registry query
(its trace is barrier, guard drop, query, then only free events, and the
resulting guard list is empty); do_reclamation leaves the guard list
unchanged and emits no guard-drop event. -/
theorem C6_guard_drop_only_pp (g : List Nat) (bag : LocalBag) :
    (do_reclamation g bag).1.hps = bag.hps
  ∧ (∀ gs, Event.dropHps gs ∉ (do_reclamation g bag).2)
  ∧ (do_reclamation_pp g bag).1.hps = []
  ∧ ∃ rest, (do_reclamation_pp g bag).2
      = Event.heavyBarrier :: Event.dropHps bag.hps :: Event.collectGuardedPtrs :: rest
    ∧ ∀ e ∈ rest, ∃ r, e = Event.free r := by
  refine ⟨rfl, fun gs hmem => ?_, rfl, ⟨(reclaimFilter g bag.retired).2, rfl, ?_⟩⟩
  · have h0 := do_reclamation_count_other g bag (Event.dropHps gs) (by simp) (by simp)
      (fun r => by simp)
    rw [List.count_eq_zero] at h0
    exact h0 hmem
  · intro e he
    obtain ⟨r, hr, -, -⟩ := reclaimFilter_snd_mem g bag.retired e he
    exact ⟨r, hr⟩

/-- Witness for C6 at a concrete bag holding one transferred guard and
one unguarded record. -/
theorem C6_guard_drop_only_pp_witness :
    (do_reclamation [] ⟨[⟨6, 0⟩], [⟨4⟩], 0⟩).1.hps = (⟨[⟨6, 0⟩], [⟨4⟩], 0⟩ : LocalBag).hps
  ∧ (∀ gs, Event.dropHps gs ∉ (do_reclamation [] ⟨[⟨6, 0⟩], [⟨4⟩], 0⟩).2)
  ∧ (do_reclamation_pp [] ⟨[⟨6, 0⟩], [⟨4⟩], 0⟩).1.hps = []
  ∧ ∃ rest, (do_reclamation_pp [] ⟨[⟨6, 0⟩], [⟨4⟩], 0⟩).2
      = Event.heavyBarrier :: Event.dropHps (⟨[⟨6, 0⟩], [⟨4⟩], 0⟩ : LocalBag).hps ::
          Event.collectGuardedPtrs :: rest
    ∧ ∀ e ∈ rest, ∃ r, e = Event.free r :=
  C6_guard_drop_only_pp [] ⟨[⟨6, 0⟩], [⟨4⟩], 0⟩

/-- Claim C7: whenever the teardown loop of impl Drop for LocalBag
completes, the bag's record collection is empty and every record that was
pending at teardown has had its destructor run exactly as many times as it
was pending — no record is discarded without being freed. -/
theorem C7_teardown_drains (snaps : List (List Nat)) (bag bag2 : LocalBag)
    (evs : List Event) (h : teardownLoop snaps bag = some (bag2, evs)) :
    bag2.retired = [] ∧ ∀ r, evs.count (Event.free r) = bag.retired.count r := by
  obtain ⟨h1, h2, -⟩ := teardown_balance snaps bag bag2 evs h
  exact ⟨h1, h2⟩

/-- Witness for C7: a bag holding one unguarded record drains in one
pass. -/
theorem C7_teardown_drains_witness :
    (LocalBag.mk [] [] 0).retired = []
  ∧ ∀ r, ([Event.heavyBarrier, Event.collectGuardedPtrs,
        Event.free ⟨3, 0⟩] : List Event).count (Event.free r)
      = (LocalBag.mk [⟨3, 0⟩] [] 0).retired.count r :=
  C7_teardown_drains [[]] ⟨[⟨3, 0⟩], [], 0⟩ ⟨[], [], 0⟩
    [Event.heavyBarrier, Event.collectGuardedPtrs, Event.free ⟨3, 0⟩] (by decide)

/-- Claim C8: over a whole lifetime — any sequence of retire, retire_pp
and try_unlink operations on a fresh bag followed by a completing
teardown — every record retired into the bag has its destructor invoked
exactly once: the free events in the total trace match the push events
one for one, record by record. -/
theorem C8_exactly_once_free (ops : List Op) (snaps : List (List Nat))
    (bag2 : LocalBag) (evs2 : List Event)
    (h : teardownLoop snaps (run LocalBag.new ops).1 = some (bag2, evs2))
    (r : LocalRetired) :
    ((run LocalBag.new ops).2 ++ evs2).count (Event.free r)
      = ((run LocalBag.new ops).2 ++ evs2).count (Event.pushRetired r) := by
  obtain ⟨-, h2, h3⟩ := teardown_balance snaps (run LocalBag.new ops).1 bag2 evs2 h
  have hrun := run_balance ops LocalBag.new r
  have hnil : (LocalBag.new.retired).count r = 0 := rfl
  rw [List.count_append, List.count_append, h2 r, h3 r]
  omega

/-- Witness for C8: retire one record, then tear down with an empty
registry snapshot. -/
theorem C8_exactly_once_free_witness :
    ((run LocalBag.new [Op.opRetire [] 5 0]).2
        ++ [Event.heavyBarrier, Event.collectGuardedPtrs, Event.free ⟨5, 0⟩]).count
      (Event.free ⟨5, 0⟩)
      = ((run LocalBag.new [Op.opRetire [] 5 0]).2
        ++ [Event.heavyBarrier, Event.collectGuardedPtrs, Event.free ⟨5, 0⟩]).count
      (Event.pushRetired ⟨5, 0⟩) :=
  C8_exactly_once_free [Op.opRetire [] 5 0] [[]] ⟨[], [], 1⟩
    [Event.heavyBarrier, Event.collectGuardedPtrs, Event.free ⟨5, 0⟩] (by decide) ⟨5, 0⟩

/-- Modelled from the spec: the registry operation
Domain::collect_guarded_ptrs is not part of src/ (the Domain collaborator
is external); per §6 it returns every address any live hazard guard
anywhere currently protects, as a snapshot no older than the last
completed heavy barrier.  A guard that protects an address continuously
from before a reclamation pass's heavy barrier until after the pass
completes is live throughout the snapshot the pass reads, so its address
is in the returned set. -/
def collect_guarded_ptrs (liveGuards : List HazardPtr) : List Nat :=
  liveGuards.map (fun g => g.protects)

/-- Claim C9: if a guard protects address A continuously from before a
reclamation pass's heavy barrier until after the pass completes (so the
guard is in the registry's live set when the pass reads it), then no
record with address A is freed during that pass, in either reclamation
routine. -/
theorem C9_no_use_after_free (live : List HazardPtr) (A : Nat) (bag : LocalBag)
    (r : LocalRetired) (hA : (⟨A⟩ : HazardPtr) ∈ live) (hr : r.ptr = A) :
    Event.free r ∉ (do_reclamation (collect_guarded_ptrs live) bag).2
  ∧ Event.free r ∉ (do_reclamation_pp (collect_guarded_ptrs live) bag).2 := by
  have hmemA : r.ptr ∈ collect_guarded_ptrs live := by
    rw [hr]
    exact List.mem_map.mpr ⟨⟨A⟩, hA, rfl⟩
  have hcontains : (collect_guarded_ptrs live).contains r.ptr = true := by
    simpa using hmemA
  constructor
  · intro hmem
    have hshape : Event.free r = Event.heavyBarrier ∨ Event.free r = Event.collectGuardedPtrs
        ∨ Event.free r ∈ (reclaimFilter (collect_guarded_ptrs live) bag.retired).2 := by
      simpa [do_reclamation, List.mem_cons] using hmem
    rcases hshape with h | h | h
    · exact absurd h (by simp)
    · exact absurd h (by simp)
    · obtain ⟨s, hs, hcon, -⟩ := reclaimFilter_snd_mem _ _ _ h
      have hrs : r = s := by injection hs
      rw [← hrs] at hcon
      rw [hcontains] at hcon
      exact absurd hcon (by simp)
  · intro hmem
    have hshape : Event.free r = Event.heavyBarrier
        ∨ Event.free r = Event.dropHps bag.hps
        ∨ Event.free r = Event.collectGuardedPtrs
        ∨ Event.free r ∈ (reclaimFilter (collect_guarded_ptrs live) bag.retired).2 := by
      simpa [do_reclamation_pp, List.mem_cons] using hmem
    rcases hshape with h | h | h | h
    · exact absurd h (by simp)
    · exact absurd h (by simp)
    · exact absurd h (by simp)
    · obtain ⟨s, hs, hcon, -⟩ := reclaimFilter_snd_mem _ _ _ h
      have hrs : r = s := by injection hs
      rw [← hrs] at hcon
      rw [hcontains] at hcon
      exact absurd hcon (by simp)

/-- Witness for C9: a guard on address 9 keeps the record at address 9
from being freed by either pass. -/
theorem C9_no_use_after_free_witness :
    Event.free ⟨9, 0⟩ ∉ (do_reclamation (collect_guarded_ptrs [⟨9⟩]) ⟨[⟨9, 0⟩], [], 0⟩).2
  ∧ Event.free ⟨9, 0⟩ ∉ (do_reclamation_pp (collect_guarded_ptrs [⟨9⟩]) ⟨[⟨9, 0⟩], [], 0⟩).2 :=
  C9_no_use_after_free [⟨9⟩] 9 ⟨[⟨9, 0⟩], [], 0⟩ ⟨9, 0⟩ (by decide) rfl

end Haphazard
